import Mathlib

/-!
Verification development for the DeepLabCut pose-estimation excerpt:
a shallow embedding in Lean 4 of the heatmap-to-keypoint predictor
(`deeplabcut/pose_estimation_pytorch/models/predictors/single_predictor.py`)
and of the evaluation-scoring module
(`deeplabcut/pose_estimation_pytorch/apis/scoring.py`), together with
theorems settling the frozen claims about them.

Modelling conventions:
* floating-point values are embedded as rationals `ℚ`; a possibly-NaN
  value is `Option ℚ` with `none` standing for NaN (NaN propagates
  through arithmetic, and every ordered comparison against NaN is false);
* tensors are index functions together with explicit dimensions;
* element-wise transcendental functions (`torch.nn.Sigmoid`, `np.sqrt`)
  are abstracted as an explicit function parameter, since none of the
  claims depend on their pointwise values;
* Python exceptions are embedded with `Except`: a raise aborts the
  computation with no partial result.
-/

namespace DLC

/-! ## Tensors

A 4-dimensional tensor: explicit dimensions and a total index function.
Reads outside the declared dimensions never occur in the modelled code
paths; the function being total merely keeps the embedding executable. -/

structure Tensor4 where
  d0 : ℕ
  d1 : ℕ
  d2 : ℕ
  d3 : ℕ
  data : ℕ → ℕ → ℕ → ℕ → ℚ

/-- A 5-dimensional tensor (used for the location-refinement field). -/
structure Tensor5 where
  d0 : ℕ
  d1 : ℕ
  d2 : ℕ
  d3 : ℕ
  d4 : ℕ
  data : ℕ → ℕ → ℕ → ℕ → ℕ → ℚ

def Tensor4.shape (t : Tensor4) : ℕ × ℕ × ℕ × ℕ := (t.d0, t.d1, t.d2, t.d3)

/-- `tensor.permute(0, 2, 3, 1)`: the new tensor's dimensions are
`(d0, d2, d3, d1)` and `new[i0, i1, i2, i3] = old[i0, i3, i1, i2]`. -/
def Tensor4.permute0231 (t : Tensor4) : Tensor4 :=
  ⟨t.d0, t.d2, t.d3, t.d1, fun a b c d => t.data a d b c⟩

/-- Element-wise application of a scalar function (models
`torch.nn.Sigmoid` applied to the heatmaps, with the sigmoid itself
abstracted as `f`). -/
def Tensor4.mapData (f : ℚ → ℚ) (t : Tensor4) : Tensor4 :=
  ⟨t.d0, t.d1, t.d2, t.d3, fun a b c d => f (t.data a b c d)⟩

/-- `tensor.reshape(batch_size, height, width, num_joints, 2)` applied to a
`(batch_size, height, width, 2*num_joints)` tensor: row-major regrouping of
the last axis, so `new[b, y, x, j, c] = old[b, y, x, 2*j + c]`. -/
def Tensor4.reshapeSplitLast (t : Tensor4) (numJoints : ℕ) : Tensor5 :=
  ⟨t.d0, t.d1, t.d2, numJoints, 2, fun b y x j c => t.data b y x (2 * j + c)⟩

/-- `locrefs * self.locref_std`: element-wise scaling of the 5-D
location-refinement tensor. -/
def Tensor5.scale (std : ℚ) (t : Tensor5) : Tensor5 :=
  ⟨t.d0, t.d1, t.d2, t.d3, t.d4, fun b y x j c => std * t.data b y x j c⟩

/-! ## `HeatmapPredictor.get_top_values`

The heatmap given to `get_top_values` has dimensions
`(batchsize, ny, nx, num_joints) = (d0, d1, d2, d3)`.  The code reshapes
the spatial axes into one flat axis of length `ny * nx` (row-major, so a
flat index `f` corresponds to the cell `(f / nx, f % nx)`) and takes
`torch.topk` along it: the positions of the `n_top` largest values, in
non-increasing order of value.  `torch.topk`'s tie order is
implementation-defined; the embedding resolves ties stably by flat index
(any fixed stable order realises the same specification). -/

/-- Value of the flattened heatmap of batch item `b`, joint `j` at flat
spatial index `f`. -/
def flatVals (t : Tensor4) (b j f : ℕ) : ℚ :=
  t.data b (f / t.d2) (f % t.d2) j

/-- The ordering used for top-k extraction: `f` comes before `g` when
its heatmap value is at least as large. -/
def topRel (t : Tensor4) (b j : ℕ) : ℕ → ℕ → Prop :=
  fun f g => flatVals t b j g ≤ flatVals t b j f

instance (t : Tensor4) (b j : ℕ) : DecidableRel (topRel t b j) :=
  fun f g => inferInstanceAs (Decidable (flatVals t b j g ≤ flatVals t b j f))

instance (t : Tensor4) (b j : ℕ) : IsTotal ℕ (topRel t b j) :=
  ⟨fun f g => le_total (flatVals t b j g) (flatVals t b j f)⟩

instance (t : Tensor4) (b j : ℕ) : IsTrans ℕ (topRel t b j) :=
  ⟨fun _ _ _ hab hbc => le_trans hbc hab⟩

/-- The flat spatial indices of the `k` largest heatmap values of batch
item `b`, joint `j`, in non-increasing order of value (`torch.topk` along
the flattened spatial axis; a stable sort fixes the
implementation-defined tie order). -/
def topkFlat (t : Tensor4) (k b j : ℕ) : List ℕ :=
  (List.insertionSort (topRel t b j) (List.range (t.d1 * t.d2))).take k

/-- The row (`y`) index of the rank-`n` candidate:
`heatmap_top // nx` in `get_top_values`. -/
def yIdx (t : Tensor4) (k b n j : ℕ) : ℕ :=
  (topkFlat t k b j).getD n 0 / t.d2

/-- The column (`x`) index of the rank-`n` candidate:
`heatmap_top % nx` in `get_top_values`. -/
def xIdx (t : Tensor4) (k b n j : ℕ) : ℕ :=
  (topkFlat t k b j).getD n 0 % t.d2

/-! ## `HeatmapPredictor.get_pose_prediction` -/

/-- The gather buffer `dz` of `get_pose_prediction`: it is initialised to
zeros; position 2 always receives the heatmap value at the candidate's
grid cell, and positions 0 and 1 receive the locref 2-vector there when a
locref tensor is present (they stay 0 otherwise). -/
def dzData (t : Tensor4) (locref : Option Tensor5) (k b n j c : ℕ) : ℚ :=
  let y := yIdx t k b n j
  let x := xIdx t k b n j
  match c with
  | 0 => match locref with
         | some L => L.data b y x j 0
         | none => 0
  | 1 => match locref with
         | some L => L.data b y x j 1
         | none => 0
  | 2 => t.data b y x j
  | _ => 0

/-- `get_pose_prediction(heatmap, locref, scale_factors, num_outputs)`:
`x = x * scale_factors[1] + 0.5 * scale_factors[1] + dz[..., 0]`,
`y = y * scale_factors[0] + 0.5 * scale_factors[0] + dz[..., 1]`,
score `= dz[..., 2]`, assembled into a `(batch, num_outputs, joints, 3)`
pose tensor.  `sy` is `scale_factors[0]` and `sx` is `scale_factors[1]`. -/
def get_pose_prediction (t : Tensor4) (locref : Option Tensor5)
    (sy sx : ℚ) (k : ℕ) : Tensor4 :=
  ⟨t.d0, k, t.d3, 3, fun b n j c =>
    match c with
    | 0 => (xIdx t k b n j : ℚ) * sx + 0.5 * sx + dzData t locref k b n j 0
    | 1 => (yIdx t k b n j : ℚ) * sy + 0.5 * sy + dzData t locref k b n j 1
    | 2 => dzData t locref k b n j 2
    | _ => 0⟩

/-! ## `HeatmapPredictor.forward` -/

/-- The constructor arguments of `HeatmapPredictor`. -/
structure HeatmapPredictor where
  apply_sigmoid : Bool
  clip_scores : Bool
  location_refinement : Bool
  locref_std : ℚ

/-- The default constructor arguments: `apply_sigmoid=True`,
`clip_scores=False`, `location_refinement=True`, `locref_std=7.2801`. -/
def HeatmapPredictor.default : HeatmapPredictor :=
  ⟨true, false, true, 7.2801⟩

/-- The model-head output dictionary handed to `forward`: a `"heatmap"`
entry and an optional `"locref"` entry (both as produced by the network,
i.e. channels-first `(batch, channels, height, width)`). -/
structure ModelOutputs where
  heatmap : Tensor4
  locref : Option Tensor4

/-- Clip the score channel (`poses[..., 2] = torch.clip(poses[..., 2],
min=0, max=1)`). -/
def clipScores (t : Tensor4) : Tensor4 :=
  ⟨t.d0, t.d1, t.d2, t.d3, fun b n j c =>
    if c = 2 then min 1 (max 0 (t.data b n j c)) else t.data b n j c⟩

/-- `HeatmapPredictor.forward(stride, outputs, num_outputs)`, with the
sigmoid abstracted as `sig`.  The heatmap is optionally passed through the
sigmoid, then permuted from `(B, J, H, W)` to `(B, H, W, J)`; the locref
(when location refinement is enabled) is permuted, reshaped to
`(B, H, W, J, 2)` and multiplied by `locref_std`; the scale factors are
`(stride, stride)`; the scores are optionally clipped.  Returns the value
under the `"poses"` key of the result dictionary. -/
def forward (p : HeatmapPredictor) (sig : ℚ → ℚ) (stride : ℚ)
    (outputs : ModelOutputs) (num_outputs : ℕ := 20) : Tensor4 :=
  let heatmaps0 := if p.apply_sigmoid then outputs.heatmap.mapData sig
                   else outputs.heatmap
  let heatmaps := heatmaps0.permute0231
  let locrefs : Option Tensor5 :=
    if p.location_refinement then
      outputs.locref.map fun L =>
        ((L.permute0231).reshapeSplitLast heatmaps.d3).scale p.locref_std
    else none
  let poses := get_pose_prediction heatmaps locrefs stride stride num_outputs
  if p.clip_scores then clipScores poses else poses

/-! ## Scoring module: NaN-aware scalar values

A value of a numpy float array is `Option ℚ`: `none` is NaN.  Arithmetic
propagates NaN; every ordered comparison whose operand is NaN is false. -/

/-- A possibly-NaN scalar. -/
abbrev Val := Option ℚ

/-- NaN-propagating subtraction. -/
def vSub : Val → Val → Val
  | some a, some b => some (a - b)
  | _, _ => none

/-- NaN-propagating addition. -/
def vAdd : Val → Val → Val
  | some a, some b => some (a + b)
  | _, _ => none

/-- NaN-propagating squaring (`** 2`). -/
def vSq : Val → Val
  | some a => some (a ^ 2)
  | none => none

/-- `np.sqrt` with the square root abstracted as `s` (its arguments in the
modelled code are sums of squares, hence never negative).  NaN maps to
NaN. -/
def vSqrt (s : ℚ → ℚ) : Val → Val
  | some a => some (s a)
  | none => none

/-- The comparison `v >= p` on a possibly-NaN `v`: false when `v` is NaN
(IEEE-754 comparison semantics, as in numpy). -/
def vGe (v : Val) (p : ℚ) : Bool :=
  match v with
  | some a => decide (p ≤ a)
  | none => false

/-- The comparison `v < p` on a possibly-NaN `v`: false when `v` is NaN. -/
def vLt (v : Val) (p : ℚ) : Bool :=
  match v with
  | some a => decide (a < p)
  | none => false

/-- `np.nanmean`: the mean of the non-NaN entries; NaN when there are
none (also when the list itself is empty). -/
def nanmean (l : List Val) : Val :=
  let vs := l.filterMap id
  if vs.isEmpty then none else some (vs.sum / vs.length)

/-! ## Scoring module: data model

* a predicted keypoint is an `(x, y, score)` triple of possibly-NaN
  scalars;
* a prediction array for one image is `individuals × keypoints` of such
  triples (numpy shape `(num_individuals, num_keypoints, 3)`);
* a ground-truth array for one image is `individuals × keypoints × values`
  with an arbitrary number of values per keypoint (the code is handed
  either 2 or 3 of them, and never checks which);
* a dictionary keyed by image path is an association list, preserving
  Python dict insertion order. -/

/-- A predicted keypoint `(x, y, score)`. -/
abbrev Kp3 := Val × Val × Val

/-- One image's prediction array. -/
abbrev PoseArr := List (List Kp3)

/-- One image's ground-truth (or coordinate-only) array: per individual,
per keypoint, the list of stored values. -/
abbrev GtArr := List (List (List Val))

/-- An image-keyed dictionary. -/
abbrev Dict (α : Type) := List (String × α)

/-- The exceptions the scoring module can raise, one constructor per
raise site. -/
inductive ScoreErr where
  /-- `get_scores`: "The prediction an ground truth dicts must contain
  the same number of images". -/
  | imageCount
  /-- `KeyError` from `keypoints[image_key]` in `build_keypoint_array`. -/
  | keyError
  /-- `ValueError` from `np.ndarray.reshape((-1, 2))` when the element
  count is odd. -/
  | reshape
  /-- `compute_rmse`: "Prediction and target arrays must have same number
  of elements!". -/
  | rmseLength
  /-- `TypeError` when `unique_bodypart_poses` is given without
  `unique_bodypart_gt`. -/
  | uniqueGtMissing
deriving DecidableEq, Repr

/-- The score dictionary returned by `get_scores`. -/
structure ScoreDict where
  rmse : Val
  rmse_pcutoff : Val
  mAP : ℚ
  mAR : ℚ
  mAP_pcutoff : ℚ
  mAR_pcutoff : ℚ
deriving DecidableEq, Repr

/-! ## `compute_rmse` -/

/-- `compute_rmse(pred, ground_truth, pcutoff)`.  Raises when the row
counts differ; otherwise builds the boolean mask `pred[:, 2] >= pcutoff`,
the per-row sums of squared coordinate differences, and returns the
NaN-excluding means of their square roots, unmasked and masked.  `s`
abstracts `np.sqrt`. -/
def compute_rmse (s : ℚ → ℚ) (pred : List Kp3) (ground_truth : List (Val × Val))
    (pcutoff : ℚ) : Except ScoreErr (Val × Val) :=
  if pred.length ≠ ground_truth.length then .error .rmseLength
  else
    let mask : List Bool := pred.map (fun r => vGe r.2.2 pcutoff)
    let square_distances : List (Val × Val) :=
      (pred.zip ground_truth).map
        (fun rg => (vSq (vSub rg.1.1 rg.2.1), vSq (vSub rg.1.2.1 rg.2.2)))
    let mean_square_errors : List Val :=
      square_distances.map (fun d => vAdd d.1 d.2)
    let rmse := nanmean (mean_square_errors.map (vSqrt s))
    let rmse_p := nanmean
      (((mean_square_errors.zip mask).filterMap
          (fun vm => if vm.2 then some vm.1 else none)).map (vSqrt s))
    .ok (rmse, rmse_p)

/-! ## `compute_oks` and `build_assemblies` -/

/-- One masked keypoint inside `compute_oks`: the slice
`keypoints_with_scores[:, :, :2].copy()` keeps `[x, y]`, and when a
pcutoff is supplied the positions where
`keypoints_with_scores[:, :, 2] < pcutoff` are overwritten with NaN. -/
def maskKp (pcutoff : Option ℚ) (kp : Kp3) : List Val :=
  match pcutoff with
  | some p => if vLt kp.2.2 p then [none, none] else [kp.1, kp.2.1]
  | none => [kp.1, kp.2.1]

/-- The masking loop of `compute_oks`: per image, per individual, per
keypoint, keep `(x, y)` or overwrite with NaN according to `maskKp`. -/
def maskPredictions (pcutoff : Option ℚ) (pred : Dict PoseArr) : Dict GtArr :=
  pred.map (fun e => (e.1, e.2.map (fun row => row.map (maskKp pcutoff))))

/-- An assembly, reduced to what the scoring code observes: the list of
its retained (finite-coordinate) joints. -/
abbrev Assembly := List (ℚ × ℚ)

/-- Modelled from the spec: the joint a keypoint row contributes to an
assembly — it is retained when both of its coordinate entries (the first
two stored values) are present and finite. -/
def jointOf (r : List Val) : Option (ℚ × ℚ) :=
  match r.get? 0, r.get? 1 with
  | some (some a), some (some b) => some (a, b)
  | _, _ => none

/-- Modelled from the spec: `Assembly.from_array` (imported from
`deeplabcut.pose_estimation_tensorflow.lib.inferenceutils`, outside this
excerpt) builds an assembly from one individual's keypoint rows
"retaining only finite-coordinate joints", and `len(assembly)` counts the
retained joints. -/
def Assembly.from_array (bodyparts : List (List Val)) : Assembly :=
  bodyparts.filterMap jointOf

/-- `build_assemblies(poses)`: per image, build an assembly from each
individual row and keep those with `len(assembly) > 0`. -/
def build_assemblies (poses : Dict GtArr) : Dict (List Assembly) :=
  poses.map (fun e =>
    (e.1, (e.2.map Assembly.from_array).filter (fun a => !a.isEmpty)))

/-- The external `evaluate_assembly` collaborator (from
`deeplabcut.pose_estimation_tensorflow.lib.inferenceutils`, outside this
excerpt): given predicted and ground-truth assemblies, `oks_sigma` and
`margin`, produce `(mAP, mAR)`.  It is an injected parameter of the
embedding; nothing about the claims depends on its value. -/
abbrev Evaluator := Dict (List Assembly) → Dict (List Assembly) → ℚ → ℚ → ℚ × ℚ

/-- `compute_oks(pred, ground_truth, oks_sigma, margin, symmetric_kpts=None,
pcutoff)`: mask the predictions, build assemblies from the masked
predictions and from the untouched ground truth, and delegate to the
evaluator. -/
def compute_oks (ev : Evaluator) (pred : Dict PoseArr) (ground_truth : Dict GtArr)
    (oks_sigma margin : ℚ) (pcutoff : Option ℚ) : ℚ × ℚ :=
  let masked_pred := maskPredictions pcutoff pred
  ev (build_assemblies masked_pred) (build_assemblies ground_truth)
    oks_sigma margin

/-! ## `get_scores` and its helpers -/

/-- `build_keypoint_array(keypoints, keys)`: look each key up in the
dictionary and stack the arrays in key order; a missing key raises
`KeyError`. -/
def build_keypoint_array (m : Dict α) : List String → Except ScoreErr (List α)
  | [] => .ok []
  | k :: ks =>
    match m.lookup k with
    | some v => (build_keypoint_array m ks).map (fun rest => v :: rest)
    | none => .error .keyError

/-- Row-major flattening of one stacked prediction array followed by
`reshape((-1, 3))`: the list of keypoint triples. -/
def flattenPose (arrays : List PoseArr) : List Kp3 :=
  (arrays.map List.flatten).flatten

/-- Row-major flattening of one stacked ground-truth array to its scalar
entries. -/
def flattenGt (arrays : List GtArr) : List Val :=
  (arrays.map (fun a => (a.map List.flatten).flatten)).flatten

/-- Regroup consecutive scalars into pairs (the row-major content of an
array reshaped to `(-1, 2)`). -/
def chunkPairs : List Val → List (Val × Val)
  | a :: b :: rest => (a, b) :: chunkPairs rest
  | _ => []

/-- `np.ndarray.reshape((-1, 2))` on a flat list of scalars: raises
`ValueError` when the element count is odd, otherwise regroups
consecutive scalars into pairs. -/
def reshapePairs (l : List Val) : Except ScoreErr (List (Val × Val)) :=
  if l.length % 2 = 0 then .ok (chunkPairs l) else .error .reshape

/-- The `if unique_bodypart_poses is not None` block of `get_scores`:
when unique-bodypart predictions are given, their stacked and flattened
arrays are appended to the base prediction rows and ground-truth pairs
(the unique ground truth is reshaped to pairs separately); without them
the base arrays pass through unchanged.  Using the unique predictions
with no unique ground truth is the `TypeError` of passing `None` on. -/
def with_unique (base : List Kp3 × List (Val × Val))
    (unique_bodypart_poses : Option (Dict PoseArr))
    (unique_bodypart_gt : Option (Dict GtArr)) (paths : List String) :
    Except ScoreErr (List Kp3 × List (Val × Val)) :=
  match unique_bodypart_poses with
  | none => .ok base
  | some uniqP =>
    (build_keypoint_array uniqP paths).bind fun uniqPredArrays =>
      match unique_bodypart_gt with
      | none => .error .uniqueGtMissing
      | some uniqG =>
        (build_keypoint_array uniqG paths).bind fun uniqGtArrays =>
          (reshapePairs (flattenGt uniqGtArrays)).map fun uniqGtPairs =>
            (base.1 ++ flattenPose uniqPredArrays, base.2 ++ uniqGtPairs)

/-- `get_scores(poses, ground_truth, unique_bodypart_poses,
unique_bodypart_gt, pcutoff)`: check the image counts, stack and flatten
the predictions (`[..., :3].reshape((-1, 3))`) and the ground truth
(`.reshape((-1, 2))`), append the unique-bodypart arrays when given, run
`compute_rmse`, run `compute_oks` without and with the pcutoff, and
assemble the score dictionary (mAP/mAR as percentages).  `ev` abstracts
`evaluate_assembly` and `s` abstracts `np.sqrt`. -/
def get_scores (ev : Evaluator) (s : ℚ → ℚ)
    (poses : Dict PoseArr) (ground_truth : Dict GtArr)
    (unique_bodypart_poses : Option (Dict PoseArr))
    (unique_bodypart_gt : Option (Dict GtArr))
    (pcutoff : ℚ) : Except ScoreErr ScoreDict :=
  if poses.length ≠ ground_truth.length then .error .imageCount
  else
    let image_paths := poses.map Prod.fst
    (build_keypoint_array poses image_paths).bind fun predArrays =>
      (build_keypoint_array ground_truth image_paths).bind fun gtArrays =>
        (reshapePairs (flattenGt gtArrays)).bind fun gtBase =>
          (with_unique (flattenPose predArrays, gtBase) unique_bodypart_poses
              unique_bodypart_gt image_paths).bind fun pg =>
            (compute_rmse s pg.1 pg.2 pcutoff).map fun r =>
              let oks := compute_oks ev poses ground_truth 0.1 0 none
              let oks_pcutoff :=
                compute_oks ev poses ground_truth 0.1 0 (some pcutoff)
              ⟨r.1, r.2, 100 * oks.1, 100 * oks.2,
               100 * oks_pcutoff.1, 100 * oks_pcutoff.2⟩

/-! ## Specification-side descriptions used to state the claims -/

/-- The per-row Euclidean distance between a prediction's `(x, y)` and a
ground-truth pair, with the square root abstracted as `s`: NaN when any
involved coordinate is NaN. -/
def rowDist (s : ℚ → ℚ) (r : Kp3) (g : Val × Val) : Val :=
  vSqrt s (vAdd (vSq (vSub r.1 g.1)) (vSq (vSub r.2.1 g.2)))

/-- The list of per-row distances between aligned prediction and
ground-truth rows. -/
def distances (s : ℚ → ℚ) (pred : List Kp3) (gt : List (Val × Val)) : List Val :=
  (pred.zip gt).map (fun rg => rowDist s rg.1 rg.2)

/-- The per-row distances restricted to the rows whose prediction score
passes `pred[:, 2] >= pcutoff`. -/
def distancesAboveCutoff (s : ℚ → ℚ) (pred : List Kp3)
    (gt : List (Val × Val)) (pcutoff : ℚ) : List Val :=
  ((pred.zip gt).filter (fun rg => vGe rg.1.2.2 pcutoff)).map
    (fun rg => rowDist s rg.1 rg.2)

/-! ## Concrete instances used by witnesses and counterexamples -/

/-- A concrete 1×2×2×1 heatmap. -/
def T1 : Tensor4 :=
  ⟨1, 2, 2, 1, fun _ y x _ => if y = 0 ∧ x = 1 then 5 else if y = 1 ∧ x = 0 then 3 else 1⟩

/-- A concrete 1×2×2×1 location-refinement field (already reshaped). -/
def L1 : Tensor5 :=
  ⟨1, 2, 2, 1, 2, fun _ y x _ c => (y : ℚ) + x + c⟩

/-- A concrete channels-first heatmap of shape `(1, 2, 4, 5)`: batch 1,
2 channels (joints), height 4, width 5. -/
def T0 : Tensor4 := ⟨1, 2, 4, 5, fun _ _ _ _ => 0⟩

/-- A concrete raw (channels-first) locref of shape `(1, 4, 4, 5)`. -/
def L0 : Tensor4 := ⟨1, 4, 4, 5, fun _ c y x => (c : ℚ) + y + x⟩

/-- Model outputs holding `T0` and `L0`. -/
def outputs0 : ModelOutputs := ⟨T0, some L0⟩

/-- A predictor configuration with no sigmoid, no clipping and no
location refinement. -/
def p0 : HeatmapPredictor := ⟨false, false, false, 7.2801⟩

/-- A concrete stub evaluator (the external `evaluate_assembly` is an
injected collaborator; its value is irrelevant to every claim). -/
def ev0 : Evaluator := fun _ _ _ _ => (1, 1)

/-- A concrete prediction list whose first row has a NaN score. -/
def predC10 : List Kp3 :=
  [(some 0, some 0, none), (some 3, some 4, some 1)]

/-- A concrete ground-truth list for `predC10`. -/
def gtC10 : List (Val × Val) := [(some 0, some 0), (some 0, some 0)]

/-- One image with one individual and two keypoints, used with `gtC9`. -/
def posesC9 : Dict PoseArr :=
  [("a", [[(some 1, some 2, some 1), (some 3, some 4, some 1)]])]

/-- A three-values-per-keypoint ground-truth array `(x, y, visibility)`
with an even stacked element count (6). -/
def gtArrC9 : GtArr := [[[some 1, some 2, some 0], [some 3, some 4, some 1]]]

/-- The dictionary holding `gtArrC9`. -/
def gtC9 : Dict GtArr := [("a", gtArrC9)]

/-- A concrete pose dictionary for the assembly claims. -/
def posesC7 : Dict GtArr := [("a", [[[some 1, some 2]], [[none, none]]])]

/-- A concrete prediction dictionary for the masking claims. -/
def predC7 : Dict PoseArr :=
  [("a", [[(some 1, some 2, some (1/4))], [(some 3, some 4, some (3/4))]])]

/-! ## Claim C1 -/

/-- C1: every candidate produced by `get_pose_prediction` has coordinates
exactly `x = grid_x*strideX + 0.5*strideX + offset_x` and
`y = grid_y*strideY + 0.5*strideY + offset_y`, where `(grid_y, grid_x)`
is the candidate's top-k grid index, the offset is the locref 2-vector at
that index — pre-multiplied by `locref_std` in `forward` — or `(0, 0)`
when the locref is absent, and the score at position 2 equals the heatmap
value at that index, with no other terms. -/
theorem c1_pose_prediction_formula :
    (∀ (t : Tensor4) (L : Tensor5) (sy sx : ℚ) (k b n j : ℕ),
      (get_pose_prediction t (some L) sy sx k).data b n j 0 =
        (xIdx t k b n j : ℚ) * sx + 0.5 * sx +
          L.data b (yIdx t k b n j) (xIdx t k b n j) j 0 ∧
      (get_pose_prediction t (some L) sy sx k).data b n j 1 =
        (yIdx t k b n j : ℚ) * sy + 0.5 * sy +
          L.data b (yIdx t k b n j) (xIdx t k b n j) j 1 ∧
      (get_pose_prediction t (some L) sy sx k).data b n j 2 =
        t.data b (yIdx t k b n j) (xIdx t k b n j) j) ∧
    (∀ (t : Tensor4) (sy sx : ℚ) (k b n j : ℕ),
      (get_pose_prediction t none sy sx k).data b n j 0 =
        (xIdx t k b n j : ℚ) * sx + 0.5 * sx + 0 ∧
      (get_pose_prediction t none sy sx k).data b n j 1 =
        (yIdx t k b n j : ℚ) * sy + 0.5 * sy + 0 ∧
      (get_pose_prediction t none sy sx k).data b n j 2 =
        t.data b (yIdx t k b n j) (xIdx t k b n j) j) ∧
    (∀ (p : HeatmapPredictor) (sig : ℚ → ℚ) (stride : ℚ)
       (outputs : ModelOutputs) (Lr : Tensor4) (k : ℕ),
      p.location_refinement = true → p.clip_scores = false →
      outputs.locref = some Lr →
      forward p sig stride outputs k =
        get_pose_prediction
          ((if p.apply_sigmoid then outputs.heatmap.mapData sig
            else outputs.heatmap).permute0231)
          (some ((Lr.permute0231.reshapeSplitLast outputs.heatmap.d1).scale
            p.locref_std))
          stride stride k) := by
  refine ⟨fun t L sy sx k b n j => ⟨rfl, rfl, rfl⟩,
          fun t sy sx k b n j => ⟨rfl, rfl, rfl⟩,
          fun p sig stride outputs Lr k hloc hclip hlr => ?_⟩
  unfold forward
  rw [hloc, hclip, hlr]
  cases hs : p.apply_sigmoid <;> simp [Tensor4.permute0231, Tensor4.mapData]

/-- Witness for C1: the `forward` conjunct applied at a concrete
predictor (location refinement on, clipping off) and concrete outputs. -/
theorem c1_pose_prediction_formula_witness :
    forward HeatmapPredictor.default id 1 outputs0 20 =
      get_pose_prediction
        ((outputs0.heatmap.mapData id).permute0231)
        (some ((L0.permute0231.reshapeSplitLast outputs0.heatmap.d1).scale
          (7.2801 : ℚ)))
        1 1 20 :=
  c1_pose_prediction_formula.2.2 HeatmapPredictor.default id 1 outputs0 L0 20
    rfl rfl rfl

/-! ## Claim C8 -/

/-- C8 counterexample: `forward` does **not** consume the `"heatmap"`
entry as `(batch, height, width, joints)`.  For an input tensor of shape
`(1, 2, 4, 5)` — which the claim reads as `B=1, H=2, W=4, J=5` — the
returned poses have shape `(1, 20, 2, 3)`, not the claimed
`(1, 20, 5, 3)`: the joint axis of the output comes from axis 1 of the
input (channels-first layout). -/
theorem c8_layout_counterexample :
    T0.shape = (1, 2, 4, 5) ∧
    (forward p0 id 1 outputs0 20).shape = (1, 20, 2, 3) ∧
    ((1, 20, 2, 3) : ℕ × ℕ × ℕ × ℕ) ≠ (1, 20, 5, 3) := by
  refine ⟨rfl, rfl, by decide⟩

/-- C8 (amended): `forward` consumes the `"heatmap"` entry laid out
channels-first as `(batch, joints, height, width)` (permuting it to
`(batch, height, width, joints)` internally), and the optional `"locref"`
entry as `(batch, 2*joints, height, width)`; for a heatmap input of shape
`(B, J, H, W)` the returned poses tensor has shape
`(B, num_outputs, J, 3)`, the joint axis of the output being axis 1 of
the input. -/
theorem c8_forward_shape (p : HeatmapPredictor) (sig : ℚ → ℚ) (stride : ℚ)
    (outputs : ModelOutputs) (k : ℕ) :
    (forward p sig stride outputs k).shape =
      (outputs.heatmap.d0, k, outputs.heatmap.d1, 3) := by
  unfold forward
  cases hs : p.apply_sigmoid <;> cases hc : p.clip_scores <;>
    simp [Tensor4.shape, Tensor4.permute0231, Tensor4.mapData, clipScores,
      get_pose_prediction]

/-! ## Claim C2 -/

/-- The full sorted flat-index list underlying `topkFlat` is pairwise
ordered by `topRel`. -/
theorem sorted_topRel (t : Tensor4) (b j : ℕ) :
    (List.insertionSort (topRel t b j) (List.range (t.d1 * t.d2))).Pairwise
      (topRel t b j) :=
  List.sorted_insertionSort (topRel t b j) (List.range (t.d1 * t.d2))

/-- C2: for a heatmap of shape `(B, H, W, J)` and `n_top ≤ H*W`,
`get_top_values` independently per `(batch, joint)` returns the positions
of the `n_top` largest flattened spatial values in non-increasing value
order; 2-D indices are recovered as `y = flat / W` and `x = flat % W`, so
every returned index satisfies `0 ≤ y < H` and `0 ≤ x < W`. -/
theorem c2_top_values (t : Tensor4) (k b j : ℕ) :
    ((topkFlat t k b j).map (flatVals t b j)).Pairwise (fun a c => c ≤ a) ∧
    (k ≤ t.d1 * t.d2 → (topkFlat t k b j).length = k) ∧
    (∀ f ∈ topkFlat t k b j, f / t.d2 < t.d1 ∧ f % t.d2 < t.d2) ∧
    (∀ f ∈ topkFlat t k b j, ∀ g, g < t.d1 * t.d2 → g ∉ topkFlat t k b j →
      flatVals t b j g ≤ flatVals t b j f) ∧
    (∀ n, yIdx t k b n j = (topkFlat t k b j).getD n 0 / t.d2 ∧
          xIdx t k b n j = (topkFlat t k b j).getD n 0 % t.d2) := by
  have hmem : ∀ f ∈ topkFlat t k b j, f < t.d1 * t.d2 := by
    intro f hf
    have hf2 : f ∈ List.insertionSort (topRel t b j) (List.range (t.d1 * t.d2)) :=
      List.take_subset _ _ hf
    have : f ∈ List.range (t.d1 * t.d2) := (List.mem_insertionSort _).mp hf2
    exact List.mem_range.mp this
  refine ⟨?_, ?_, ?_, ?_, fun n => ⟨rfl, rfl⟩⟩
  · have htake : (topkFlat t k b j).Pairwise (topRel t b j) :=
      List.Pairwise.sublist (List.take_sublist _ _) (sorted_topRel t b j)
    rw [List.pairwise_map]
    exact htake.imp (fun h => h)
  · intro hk
    simp [topkFlat, List.length_take, List.length_insertionSort, hk]
  · intro f hf
    have hflt := hmem f hf
    have hd2 : 0 < t.d2 := by
      rcases Nat.eq_zero_or_pos t.d2 with h0 | h
      · rw [h0, Nat.mul_zero] at hflt; exact absurd hflt (Nat.not_lt_zero f)
      · exact h
    constructor
    · exact (Nat.div_lt_iff_lt_mul hd2).mpr hflt
    · exact Nat.mod_lt f hd2
  · intro f hf g hg hgtop
    have hsorted := sorted_topRel t b j
    have hsplit := (List.take_append_drop k
      (List.insertionSort (topRel t b j) (List.range (t.d1 * t.d2)))).symm
    rw [hsplit] at hsorted
    have hcross := (List.pairwise_append.mp hsorted).2.2
    have hgmem : g ∈ List.insertionSort (topRel t b j) (List.range (t.d1 * t.d2)) :=
      (List.mem_insertionSort _).mpr (List.mem_range.mpr hg)
    rw [hsplit] at hgmem
    rcases List.mem_append.mp hgmem with hgl | hgr
    · exact absurd hgl hgtop
    · exact hcross f hf g hgr

/-- Witness for C2: the properties evaluated on the concrete heatmap
`T1` with `n_top = 2`, discharging the range and membership hypotheses at
concrete indices. -/
theorem c2_top_values_witness :
    ((topkFlat T1 2 0 0).map (flatVals T1 0 0)).Pairwise (fun a c => c ≤ a) ∧
    ((2 : ℕ) ≤ T1.d1 * T1.d2 ∧ (topkFlat T1 2 0 0).length = 2) ∧
    ((1 : ℕ) ∈ topkFlat T1 2 0 0 ∧ 1 / T1.d2 < T1.d1 ∧ 1 % T1.d2 < T1.d2) ∧
    ((0 : ℕ) < T1.d1 * T1.d2 ∧ (0 : ℕ) ∉ topkFlat T1 2 0 0 ∧
      flatVals T1 0 0 0 ≤ flatVals T1 0 0 1) :=
  ⟨(c2_top_values T1 2 0 0).1,
   ⟨by decide, (c2_top_values T1 2 0 0).2.1 (by decide)⟩,
   ⟨by decide, (c2_top_values T1 2 0 0).2.2.1 1 (by decide)⟩,
   ⟨by decide, by decide,
    (c2_top_values T1 2 0 0).2.2.2.1 1 (by decide) 0 (by decide) (by decide)⟩⟩

/-! ## Claims C4, C5, C10: `compute_rmse` -/

/-- Boolean masking `mse[mask]` with `mask = xs.map m` selects exactly
the rows of the zipped list whose first component passes `m`. -/
theorem filter_by_zipped_mask {α β γ : Type} (f : α × β → γ) (m : α → Bool) :
    ∀ (xs : List α) (ys : List β),
      (((xs.zip ys).map f).zip (xs.map m)).filterMap
          (fun vm => if vm.2 then some vm.1 else none)
        = ((xs.zip ys).filter (fun rg => m rg.1)).map f := by
  intro xs
  induction xs with
  | nil => intro ys; simp
  | cons x xs ih =>
    intro ys
    cases ys with
    | nil => simp
    | cons y ys => cases hm : m x <;> simp [hm, ih ys]

/-- C5: `compute_rmse` raises its shape error, with no partial result,
if and only if the row counts of the prediction and the ground truth
differ; with equal counts it returns a result. -/
theorem c5_rmse_shape_check (s : ℚ → ℚ) (pred : List Kp3)
    (ground_truth : List (Val × Val)) (pcutoff : ℚ) :
    (compute_rmse s pred ground_truth pcutoff = .error .rmseLength ↔
      pred.length ≠ ground_truth.length) ∧
    (pred.length = ground_truth.length →
      ∃ r, compute_rmse s pred ground_truth pcutoff = .ok r) := by
  constructor
  · unfold compute_rmse
    by_cases h : pred.length = ground_truth.length <;> simp [h]
  · intro h
    unfold compute_rmse
    simp [h]

/-- Witness for C5: both directions evaluated at concrete inputs. -/
theorem c5_rmse_shape_check_witness :
    (compute_rmse id predC10 gtC10 0 = .error .rmseLength ↔
      predC10.length ≠ gtC10.length) ∧
    (predC10.length = gtC10.length ∧
      ∃ r, compute_rmse id predC10 gtC10 0 = .ok r) :=
  ⟨(c5_rmse_shape_check id predC10 gtC10 0).1,
   rfl, (c5_rmse_shape_check id predC10 gtC10 0).2 rfl⟩

/-- C4: with matching row counts (`N > 0`), `compute_rmse` returns the
NaN-excluding mean of the per-row Euclidean distances between
`pred[:, :2]` and the ground truth, and the NaN-excluding mean of the
distances of the rows passing `pred[:, 2] >= pcutoff`; a list whose
entries are all NaN (in particular an empty restricted set) has NaN mean,
and no error is raised. -/
theorem c4_rmse_value (s : ℚ → ℚ) (pred : List Kp3)
    (ground_truth : List (Val × Val)) (pcutoff : ℚ)
    (hlen : pred.length = ground_truth.length) (_hpos : 0 < pred.length) :
    compute_rmse s pred ground_truth pcutoff =
      .ok (nanmean (distances s pred ground_truth),
           nanmean (distancesAboveCutoff s pred ground_truth pcutoff)) ∧
    (∀ l : List Val, (∀ v ∈ l, v = none) → nanmean l = none) := by
  constructor
  · unfold compute_rmse
    rw [if_neg (by simp [hlen])]
    simp only [List.map_map]
    refine congrArg Except.ok (Prod.ext ?_ ?_)
    · rfl
    · have hmask := filter_by_zipped_mask
        ((fun d : Val × Val => vAdd d.1 d.2) ∘
          fun rg : Kp3 × (Val × Val) =>
            (vSq (vSub rg.1.1 rg.2.1), vSq (vSub rg.1.2.1 rg.2.2)))
        (fun r : Kp3 => vGe r.2.2 pcutoff) pred ground_truth
      rw [hmask, List.map_map]
      rfl
  · intro l hl
    have : l.filterMap id = [] := List.filterMap_eq_nil_iff.mpr (fun v hv => hl v hv)
    simp [nanmean, this]

/-- Witness for C4: the value equation at a concrete two-row input. -/
theorem c4_rmse_value_witness :
    predC10.length = gtC10.length ∧ 0 < predC10.length ∧
    compute_rmse id predC10 gtC10 0 =
      .ok (nanmean (distances id predC10 gtC10),
           nanmean (distancesAboveCutoff id predC10 gtC10 0)) :=
  ⟨rfl, by decide, (c4_rmse_value id predC10 gtC10 0 rfl (by decide)).1⟩

/-- C10: a row whose prediction score is NaN never passes the mask
`pred[:, 2] >= pcutoff`, for every `pcutoff` — the IEEE comparison
against NaN is false — so such rows are excluded from the restricted
mean; with the default `pcutoff = -1` the two returned means can
therefore differ (here `25/2` against `25`). -/
theorem c10_nan_score_excluded :
    (∀ (pcutoff : ℚ), vGe none pcutoff = false) ∧
    (∀ (pred : List Kp3) (ground_truth : List (Val × Val)) (pcutoff : ℚ),
      (((pred.zip ground_truth).filter
          (fun rg => vGe rg.1.2.2 pcutoff)).all
        (fun rg => !rg.1.2.2.isNone)) = true) ∧
    compute_rmse id predC10 gtC10 (-1) = .ok (some (25/2), some 25) ∧
    (some (25/2) : Val) ≠ some 25 := by
  refine ⟨fun _ => rfl, ?_,
    by simp [compute_rmse, predC10, gtC10, nanmean, vGe, vAdd, vSq, vSub, vSqrt];
       norm_num,
    by simp; norm_num⟩
  intro pred ground_truth pcutoff
  rw [List.all_eq_true]
  intro rg hrg
  have hpass := (List.mem_filter.mp hrg).2
  cases hsc : rg.1.2.2 with
  | none => rw [hsc] at hpass; exact absurd hpass (by simp [vGe])
  | some q => simp [hsc]

/-! ## Claims C6 and C7: masking and assemblies -/

/-- Looking a key up in an association list whose values were mapped
yields the mapped value. -/
theorem lookup_map_values {α β : Type} (f : α → β) :
    ∀ (m : List (String × α)) (key : String) (v : α),
      m.lookup key = some v →
      (m.map (fun e => (e.1, f e.2))).lookup key = some (f v) := by
  intro m
  induction m with
  | nil => intro key v h; simp at h
  | cons e es ih =>
    intro key v h
    by_cases hk : key == e.1
    · rw [List.lookup] at h
      rw [hk] at h
      simp only [List.map_cons, List.lookup, hk]
      rw [Option.some_inj.mp h]
    · rw [List.lookup] at h
      rw [Bool.of_not_eq_true hk] at h
      simp only [List.map_cons, List.lookup, Bool.of_not_eq_true hk]
      exact ih key v h

/-- C6: with a pcutoff supplied, `compute_oks` hands the assembly
builder a prediction in which `(x, y)` is replaced by NaN exactly at the
keypoints whose confidence is strictly below the pcutoff (a NaN
confidence never compares below), every other keypoint keeps the input's
coordinates, and both the ground-truth mapping and the original
prediction arrays reach the evaluator / remain in the caller's hands
unchanged. -/
theorem c6_oks_masking (ev : Evaluator) (pred : Dict PoseArr)
    (ground_truth : Dict GtArr) (oks_sigma margin pcutoff : ℚ) :
    compute_oks ev pred ground_truth oks_sigma margin (some pcutoff) =
      ev (build_assemblies (maskPredictions (some pcutoff) pred))
        (build_assemblies ground_truth) oks_sigma margin ∧
    (∀ x y sc, maskKp (some pcutoff) (x, y, sc) =
      if vLt sc pcutoff then [none, none] else [x, y]) ∧
    (∀ q : ℚ, vLt (some q) pcutoff = decide (q < pcutoff)) ∧
    vLt (none : Val) pcutoff = false ∧
    (∀ (img : String) (arr : PoseArr), pred.lookup img = some arr →
      (maskPredictions (some pcutoff) pred).lookup img =
        some (arr.map (fun row => row.map (maskKp (some pcutoff))))) := by
  refine ⟨rfl, fun x y sc => rfl, fun q => rfl, rfl, ?_⟩
  intro img arr harr
  exact lookup_map_values (fun a => a.map (fun row => row.map (maskKp (some pcutoff))))
    pred img arr harr

/-- Witness for C6: the lookup conjunct discharged on a concrete
prediction dictionary. -/
theorem c6_oks_masking_witness :
    predC7.lookup "a" =
      some [[(some 1, some 2, some (1/4))], [(some 3, some 4, some (3/4))]] ∧
    (maskPredictions (some (1/2)) predC7).lookup "a" =
      some ([[(some 1, some 2, some (1/4))], [(some 3, some 4, some (3/4))]].map
        (fun row => row.map (maskKp (some (1/2))))) :=
  ⟨rfl, (c6_oks_masking ev0 predC7 [] 1 0 (1/2)).2.2.2.2 "a"
    [[(some 1, some 2, some (1/4))], [(some 3, some 4, some (3/4))]] rfl⟩

/-- A joint retained from a masked keypoint is retained, with the same
coordinates, from the unmasked keypoint. -/
theorem jointOf_mask_mono (pcutoff : ℚ) (kp : Kp3) (pr : ℚ × ℚ)
    (h : jointOf (maskKp (some pcutoff) kp) = some pr) :
    jointOf (maskKp none kp) = some pr := by
  rcases kp with ⟨x, y, sc⟩
  by_cases hlt : vLt sc pcutoff
  · rw [maskKp] at h
    rw [if_pos hlt] at h
    exact absurd h (by simp [jointOf])
  · rw [maskKp] at h
    rw [if_neg hlt] at h
    exact h

/-- C7: `build_assemblies` never places an empty assembly (one with zero
retained finite-coordinate joints) in an image's list, and per image the
number of assemblies built from the pcutoff-masked predictions never
exceeds the number built from the unmasked predictions. -/
theorem c7_assemblies :
    (∀ (poses : Dict GtArr) (img : String) (assems : List Assembly),
      (img, assems) ∈ build_assemblies poses → ∀ a ∈ assems, a ≠ []) ∧
    (∀ (pred : Dict PoseArr) (pcutoff : ℚ),
      List.Forall₂ (fun x y => x.2.length ≤ y.2.length)
        (build_assemblies (maskPredictions (some pcutoff) pred))
        (build_assemblies (maskPredictions none pred))) := by
  constructor
  · intro poses img assems hmem a ha
    rcases List.mem_map.mp hmem with ⟨e, _, hmk⟩
    have hassems : assems = (e.2.map Assembly.from_array).filter
        (fun x => !x.isEmpty) := (congrArg Prod.snd hmk).symm
    rw [hassems] at ha
    have := (List.mem_filter.mp ha).2
    intro hnil
    rw [hnil] at this
    simp at this
  · intro pred pcutoff
    unfold build_assemblies maskPredictions
    simp only [List.map_map]
    rw [List.forall₂_map_right_iff, List.forall₂_map_left_iff]
    refine List.forall₂_same.mpr (fun e he => ?_)
    simp only [Function.comp]
    rw [← List.countP_eq_length_filter, ← List.countP_eq_length_filter]
    simp only [List.countP_map]
    refine List.countP_mono_left (fun row hrow hkeep => ?_)
    simp only [Function.comp_apply, Bool.not_eq_true'] at hkeep ⊢
    rw [List.isEmpty_eq_false] at hkeep ⊢
    intro hnil2
    rcases List.exists_mem_of_ne_nil _ hkeep with ⟨pr, hpr⟩
    rcases List.mem_filterMap.mp (by
      have : pr ∈ Assembly.from_array (row.map (maskKp (some pcutoff))) := hpr
      unfold Assembly.from_array at this
      rw [List.filterMap_map] at this
      exact this) with ⟨kp, hkp, hj⟩
    have hj2 := jointOf_mask_mono pcutoff kp pr hj
    have : pr ∈ Assembly.from_array (row.map (maskKp none)) := by
      unfold Assembly.from_array
      rw [List.filterMap_map]
      exact List.mem_filterMap.mpr ⟨kp, hkp, hj2⟩
    rw [hnil2] at this
    exact absurd this (List.not_mem_nil pr)

/-! ## Claims C3 and C9: `get_scores` -/

/-- Witness for C7: the no-empty-assembly conjunct discharged on a
concrete pose dictionary, where the all-NaN individual is dropped. -/
theorem c7_assemblies_witness :
    (("a", ([[((1 : ℚ), (2 : ℚ))]] : List Assembly)) ∈
        build_assemblies posesC7) ∧
    ([((1 : ℚ), (2 : ℚ))] ∈ ([[((1 : ℚ), (2 : ℚ))]] : List (List (ℚ × ℚ)))) ∧
    ([((1 : ℚ), (2 : ℚ))] : Assembly) ≠ [] :=
  ⟨by decide, by decide,
   c7_assemblies.1 posesC7 "a" [[((1 : ℚ), (2 : ℚ))]] (by decide)
     [((1 : ℚ), (2 : ℚ))] (by decide)⟩

/-- C9 counterexample: with a ground truth storing three values per
keypoint and an even stacked element count (so the reshape itself
succeeds), the regrouped pairs are **not** silently compared against the
predictions — `compute_rmse` raises its length error, because the pair
count (3/2 per keypoint) exceeds the prediction row count. -/
theorem c9_counterexample_rmse_error :
    (flattenGt [gtArrC9]).length % 2 = 0 ∧
    get_scores ev0 id posesC9 gtC9 none none (-1) = .error .rmseLength ∧
    ∀ d : ScoreDict, get_scores ev0 id posesC9 gtC9 none none (-1) ≠ .ok d := by
  refine ⟨rfl, rfl, fun d h => ?_⟩
  rw [show get_scores ev0 id posesC9 gtC9 none none (-1) = .error .rmseLength
    from rfl] at h
  exact absurd h (by simp)

/-- C9 (amended): the reshape of the stacked ground truth to `(-1, 2)`
raises no error whenever the total element count is even, and silently
regroups consecutive scalars — mixing coordinates and visibility flags
into `(x, y)` pairs when a third column is present; those mixed pairs are
then handed to the RMSE comparison, which raises its length-mismatch
error (rather than comparing them) because three halves of the keypoint
count cannot equal the keypoint count when keypoints exist. -/
theorem c9_gt_reshape_regrouping :
    (∀ l : List Val, l.length % 2 = 0 → reshapePairs l = .ok (chunkPairs l)) ∧
    (∀ x1 y1 v1 x2 y2 v2 : Val,
      chunkPairs [x1, y1, v1, x2, y2, v2] = [(x1, y1), (v1, x2), (y2, v2)]) ∧
    (flattenGt [gtArrC9]).length % 2 = 0 ∧
    reshapePairs (flattenGt [gtArrC9]) =
      .ok [(some 1, some 2), (some 0, some 3), (some 4, some 1)] ∧
    get_scores ev0 id posesC9 gtC9 none none (-1) = .error .rmseLength := by
  exact ⟨fun l hl => by simp [reshapePairs, hl],
    fun x1 y1 v1 x2 y2 v2 => rfl, rfl, rfl, rfl⟩

/-- Witness for C9: the even-length reshape conjunct applied at a
concrete flat list. -/
theorem c9_gt_reshape_regrouping_witness :
    ([some 1, some 2, some 3, some 4] : List Val).length % 2 = 0 ∧
    reshapePairs [some 1, some 2, some 3, some 4] =
      .ok (chunkPairs [some 1, some 2, some 3, some 4]) :=
  ⟨rfl, c9_gt_reshape_regrouping.1 [some 1, some 2, some 3, some 4] rfl⟩

end DLC
